import Mathlib

/-!
Verification of the enrichment-and-caching pipeline of `scrape.py`
(Pathé Den Haag showtimes → HTML cards).

The relevant program fragments are shallowly embedded as executable Lean
functions.  Network I/O is abstracted by oracle functions passed as
parameters (an HTTP GET that may raise becomes `Except Unit α`); the
SQLite tables become explicit association lists threaded through the
functions; wall-clock UTC timestamps become rational numbers of seconds
since an arbitrary epoch.  Python dictionaries whose keys may be absent
are embedded with `Option`: a field of type `Option (Option String)` is
`none` when the key is absent, `some none` when the key is present with
value `None`, and `some (some v)` when present with a string value.
-/

namespace PatheScrape

/-! ## Constants (scrape.py CONFIG section) -/

/-- `PAGE_SIZES = (100, 50, 20)` from scrape.py line 37. -/
def PAGE_SIZES : List Nat := [100, 50, 20]

/-- `NEW_BOOKABLE_HOURS = 72` from scrape.py line 70. -/
def NEW_BOOKABLE_HOURS : ℚ := 72

/-- `NEW_SOON_HOURS = 24` from scrape.py line 71. -/
def NEW_SOON_HOURS : ℚ := 24

/-! ## Lifecycle marker trackers (scrape.py lines 352-407)

The `seen_bookable` / `seen_soon` SQLite tables (`slug TEXT PRIMARY KEY,
first_seen TEXT`) are embedded as association lists from slug to the
stored timestamp.  Timestamps are rationals counting seconds since an
arbitrary epoch, all in UTC (the ISO serialisation round-trip and the
naive-timestamp upgrade on read are identity in this model).
`float('inf')` is embedded as the distinguished value `HoursVal.inf`. -/

abbrev MarkerStore := List (String × ℚ)

/-- `SELECT first_seen FROM seen_* WHERE slug=?` — first row for the key. -/
def storeLookup : MarkerStore → String → Option ℚ
  | [], _ => none
  | e :: rest, slug => if e.1 = slug then some e.2 else storeLookup rest slug

/-- The hours value returned by the trackers: a finite number of hours or
Python's `float('inf')`. -/
inductive HoursVal where
  | fin : ℚ → HoursVal
  | inf : HoursVal
deriving DecidableEq, Repr

/-- `register_and_age_bookable(slug, is_bookable)` (scrape.py lines 352-380).
Returns the `(hours_since_first_bookable, is_within_window)` pair together
with the updated `seen_bookable` store.  `(now - first).total_seconds() /
3600.0` becomes `(now - first) / 3600` over ℚ. -/
def register_and_age_bookable (st : MarkerStore) (now : ℚ) (slug : String)
    (is_bookable : Bool) : (HoursVal × Bool) × MarkerStore :=
  if !is_bookable then ((HoursVal.inf, false), st)
  else
    match storeLookup st slug with
    | none => ((HoursVal.fin 0, true), (slug, now) :: st)
    | some first =>
        let hrs := (now - first) / 3600
        ((HoursVal.fin hrs, decide (hrs < NEW_BOOKABLE_HOURS)), st)

/-- `register_and_age_soon(slug, is_coming_soon)` (scrape.py lines 382-407),
same shape as the bookable tracker but over `seen_soon` and the
`NEW_SOON_HOURS` window. -/
def register_and_age_soon (st : MarkerStore) (now : ℚ) (slug : String)
    (is_coming_soon : Bool) : (HoursVal × Bool) × MarkerStore :=
  if !is_coming_soon then ((HoursVal.inf, false), st)
  else
    match storeLookup st slug with
    | none => ((HoursVal.fin 0, true), (slug, now) :: st)
    | some first =>
        let hrs := (now - first) / 3600
        ((HoursVal.fin hrs, decide (hrs < NEW_SOON_HOURS)), st)

/-! ## Source Fetcher (scrape.py lines 112-123)

`fetch_shows(date)` loops over `PAGE_SIZES`; the HTTP GET for one page
size is abstracted by an oracle `Nat → Except Unit (List String)` (the
items are represented by their slugs; `.error` is a raised exception,
`.ok []` a response with zero shows).  `sys.exit(1)` — process
termination with a non-zero code, occurring before any output file is
written — is embedded as the result `none`. -/

def fetchGo (oracle : Nat → Except Unit (List String)) :
    List Nat → Option (List String)
  | [] => none
  | sz :: rest =>
      match oracle sz with
      | Except.error _ => fetchGo oracle rest
      | Except.ok shows =>
          if shows.isEmpty then fetchGo oracle rest else some shows

/-- `fetch_shows` over the fixed `PAGE_SIZES` sequence. -/
def fetch_shows (oracle : Nat → Except Unit (List String)) :
    Option (List String) :=
  fetchGo oracle PAGE_SIZES

/-- The sequence of page sizes actually attempted (one `get_json` call per
element), mirroring the branch structure of `fetch_shows`. -/
def fetchAttempts (oracle : Nat → Except Unit (List String)) :
    List Nat → List Nat
  | [] => []
  | sz :: rest =>
      match oracle sz with
      | Except.error _ => sz :: fetchAttempts oracle rest
      | Except.ok shows =>
          if shows.isEmpty then sz :: fetchAttempts oracle rest else [sz]

/-! ## Scope filter and zone-stub injection (scrape.py lines 1916-1918 and
1946-1957)

Identity flow only: the catalog and the zone listing are lists of slugs.
`shows = [s for s in shows if s.get("slug") in zone_slugs]` is the filter;
afterwards `main` builds `slug_to_obj` from the filtered shows and injects
a stub for every zone slug (`slug_to_obj.setdefault(zslug, None)`), then
rebuilds `shows` from every entry whose `enrich_or_fetch` call returns a
record (abstracted by the success predicate `fetchOk`).  Both
`fetch_zone_slugs()` and `fetch_zone_shows()` read the same zone endpoint,
so a single `zone` list models both. -/

def scopeFilter (catalog zone : List String) : List String :=
  catalog.filter (fun s => zone.contains s)

/-- The key set of `slug_to_obj`: the filtered slugs (each once, as dict
keys) followed by the zone slugs not already present (the injected
stubs). -/
def slugKeys (filtered zone : List String) : List String :=
  filtered.dedup ++ zone.filter (fun z => !(filtered.contains z))

/-- The slugs of the rebuilt `shows` list after the single-show
enrichment step: exactly the `slug_to_obj` keys whose fetch/merge
succeeded. -/
def pipelineSlugs (catalog zone : List String) (fetchOk : String → Bool) :
    List String :=
  (slugKeys (scopeFilter catalog zone) zone).filter fetchOk

/-- The output-producing skeleton of `main`: the catalog fetch happens
first (line 1913) and `sys.exit(1)` inside it aborts the run, while the
output file is written only at the very end (line 2077); `none` is a run
that terminated without writing anything. -/
def mainRun (oracle : Nat → Except Unit (List String)) (zone : List String)
    (fetchOk : String → Bool) : Option (List String) :=
  match fetch_shows oracle with
  | none => none
  | some catalog => some (pipelineSlugs catalog zone fetchOk)

/-! ## Leak detection (scrape.py lines 561-580 and 1995-2008) -/

/-- One entry of the apibay response array; `status` and `name` keys may
be absent. -/
structure TorrentHit where
  status : Option String
  name : Option String
deriving DecidableEq, Repr

/-- The release-tag alternatives of the `re.search` pattern
`(BrRip|BDRip|BluRay|WEBRip|WEB-DL|WEB|HDRip)`. -/
def LEAK_TAGS : List String := ["BrRip", "BDRip", "BluRay", "WEBRip", "WEB-DL", "WEB", "HDRip"]

/-- Is `pat` a prefix of `hay` (character lists)? -/
def listStartsWith : List Char → List Char → Bool
  | _, [] => true
  | [], _ :: _ => false
  | h :: hs, p :: ps => h == p && listStartsWith hs ps

/-- Does `hay` contain `pat` as a contiguous sublist? -/
def listHasSub (pat : List Char) : List Char → Bool
  | [] => pat.isEmpty
  | c :: rest => listStartsWith (c :: rest) pat || listHasSub pat rest

/-- `re.search(tags, name, re.I)` for an alternation of plain literals:
case-insensitive containment of some tag. -/
def leakNameHit (name : String) : Bool :=
  LEAK_TAGS.any (fun t =>
    listHasSub (t.toList.map Char.toLower) (name.toList.map Char.toLower))

/-- `check_leak(imdb_id)` with the apibay GET abstracted to its outcome:
an exception or a parsed hit list.  Any exception yields `false`; a hit
list yields `true` iff some entry has `status == "vip"` and a matching
name (absent name defaults to `""`). -/
def check_leak (resp : Except Unit (List TorrentHit)) : Bool :=
  match resp with
  | Except.error _ => false
  | Except.ok ts =>
      ts.any (fun t => t.status == some "vip" && leakNameHit (t.name.getD ""))

/-! ## OMDb enrichment (scrape.py lines 411-556)

`fetch_omdb_data` is embedded from the point where `params` has been
built (line 440): its inputs are the parenthesis-stripped `title` and the
already-normalised optional production `year` (the title/year derivation
from the raw show JSON at lines 412-437 is not load-bearing for any claim
and is folded into these two inputs).  The OMDb HTTP GET is an oracle
`String → Option Int → Except Unit OmdbResp` (title, `y` parameter). -/

/-- The parsed OMDb JSON body: every key the code reads, each possibly
absent.  A `ratings` entry is the `(Source, Value)` pair of one element
of the heterogeneous `Ratings` list. -/
structure OmdbResp where
  response : Option String
  errorMsg : Option String
  ratings : List (Option String × Option String)
  imdbRating : Option String
  imdbVotes : Option String
  imdbID : Option String
  poster : Option String
  runtime : Option String
deriving DecidableEq, Repr

/-- `d.get("Response") != "True"` negated: the response is a success. -/
def omdbSuccess (d : OmdbResp) : Bool :=
  d.response == some "True"

/-- `error = d.get("Error", "")`. -/
def errStr (d : OmdbResp) : String :=
  d.errorMsg.getD ""

/-- The dictionary returned by a successful `fetch_omdb_data` (its seven
keys). -/
structure Enrichment where
  imdbRating : Option String
  imdbVotes : Option String
  imdbID : Option String
  omdbPoster : Option String
  rtRating : Option String
  mcRating : Option String
  runtime : Option String
deriving DecidableEq, Repr

/-- `x if x not in ("N/A", None) else None`. -/
def filterNA (v : Option String) : Option String :=
  if v == some "N/A" then none else v

/-- `value.split("/")[0]`: the prefix of `v` before its first `/` (the
whole string when there is none). -/
def splitHeadSlash (v : String) : String :=
  String.mk (v.toList.takeWhile (fun c => c != '/'))

/-- One iteration of the `for r in d.get("Ratings", [])` loop
(scrape.py lines 467-471): a Rotten Tomatoes entry with a usable value
overwrites `rt`, a Metacritic entry overwrites `mc` with the value's
prefix before the slash. -/
def rtMcStep (acc r : Option String × Option String) :
    Option String × Option String :=
  let rt := if r.1 == some "Rotten Tomatoes" && !(r.2 == some "N/A") && !(r.2 == none)
    then r.2 else acc.1
  let mc := if r.1 == some "Metacritic" && !(r.2 == some "N/A") && !(r.2 == none)
    then r.2.map splitHeadSlash else acc.2
  (rt, mc)

/-- The whole `for r in d.get("Ratings", [])` loop; a later matching
entry overwrites an earlier one, exactly as repeated assignment does. -/
def collectRtMc (rs : List (Option String × Option String)) :
    Option String × Option String :=
  rs.foldl rtMcStep (none, none)

/-- The result dictionary built at scrape.py lines 473-481: rating, vote
count and poster are N/A-filtered, the external id and the runtime are
copied through unfiltered. -/
def extractFields (d : OmdbResp) : Enrichment :=
  let rm := collectRtMc d.ratings
  { imdbRating := filterNA d.imdbRating
    imdbVotes := filterNA d.imdbVotes
    imdbID := d.imdbID
    omdbPoster := filterNA d.poster
    rtRating := rm.1
    mcRating := rm.2
    runtime := d.runtime }

/-- The OMDb HTTP GET oracle: title and optional `y` parameter to
outcome. -/
abbrev OmdbOracle := String → Option Int → Except Unit OmdbResp

/-- `fetch_omdb_data` (scrape.py lines 449-484).  `none` is the empty
dictionary `{}` returned on a miss or on any exception (the whole body is
wrapped in `try`, so an exception in the retry call also yields `{}`).
On a non-success first response the code retries once with `year - 1`
exactly when a year was supplied and the error is the literal
`"Movie not found!"`. -/
def fetch_omdb_data (oracle : OmdbOracle) (title : String) (year : Option Int) :
    Option Enrichment :=
  match oracle title year with
  | Except.error _ => none
  | Except.ok d =>
      if omdbSuccess d then some (extractFields d)
      else
        match year with
        | some y =>
            if errStr d == "Movie not found!" then
              match oracle title (some (y - 1)) with
              | Except.error _ => none
              | Except.ok d2 =>
                  if omdbSuccess d2 then some (extractFields d2) else none
            else none
        | none => none

/-- The list of `y` parameters of the OMDb GETs issued by one
`fetch_omdb_data` call, mirroring its branch structure. -/
def fetch_omdb_queries (oracle : OmdbOracle) (title : String)
    (year : Option Int) : List (Option Int) :=
  match oracle title year with
  | Except.error _ => [year]
  | Except.ok d =>
      if omdbSuccess d then [year]
      else
        match year with
        | some y =>
            if errStr d == "Movie not found!" then [year, some (y - 1)]
            else [year]
        | none => [year]

/-! ## The daily cache and `enrich_with_omdb` (scrape.py lines 283-296
and 487-556)

The `omdb_cache` table (`PRIMARY KEY(slug, yyyymmdd)`) is an association
list keyed by `(slug, day)`; `INSERT OR REPLACE` is an upsert.  A show
dictionary is embedded with `Option (Option String)` enrichment fields
(outer `none` = key absent).  The thread pool of lookups is serialised:
each lookup is an independent pure oracle call, and all cache writes
happen against the same connection, so the pool order affects no claim
stated here. -/

/-- One `omdb_cache` row (the seven non-key columns). -/
structure CacheRow where
  omdbRating : Option String
  omdbVotes : Option String
  imdbID : Option String
  omdbPoster : Option String
  rtRating : Option String
  mcRating : Option String
  runtime : Option String
deriving DecidableEq, Repr

abbrev Cache := List ((String × String) × CacheRow)

/-- `SELECT ... FROM omdb_cache WHERE slug=? AND yyyymmdd=?`. -/
def cacheLookup : Cache → String → String → Option CacheRow
  | [], _, _ => none
  | e :: rest, slug, day =>
      if e.1.1 = slug ∧ e.1.2 = day then some e.2 else cacheLookup rest slug day

/-- Drop every row with the given key. -/
def cacheDelete : Cache → String → String → Cache
  | [], _, _ => []
  | e :: rest, slug, day =>
      if e.1.1 = slug ∧ e.1.2 = day then cacheDelete rest slug day
      else e :: cacheDelete rest slug day

/-- `INSERT OR REPLACE INTO omdb_cache ... VALUES (?,?,...)`. -/
def cacheUpsert (c : Cache) (slug day : String) (r : CacheRow) : Cache :=
  ((slug, day), r) :: cacheDelete c slug day

/-- The show dictionary as the merger sees it: identity, the two derived
query parameters, the enrichment keys (absent until written) and the
leak flag. -/
structure Show where
  slug : String
  title : String
  year : Option Int
  omdbRating : Option (Option String)
  omdbVotes : Option (Option String)
  imdbID : Option (Option String)
  omdbPoster : Option (Option String)
  rtRating : Option (Option String)
  mcRating : Option (Option String)
  runtime : Option (Option String)
  isLeaked : Bool
deriving DecidableEq, Repr

/-- `s.update(dict(zip(keys, row)))` on a cache hit: every enrichment key
becomes present with the cached value. -/
def hydrate (s : Show) (r : CacheRow) : Show :=
  { s with
    omdbRating := some r.omdbRating
    omdbVotes := some r.omdbVotes
    imdbID := some r.imdbID
    omdbPoster := some r.omdbPoster
    rtRating := some r.rtRating
    mcRating := some r.mcRating
    runtime := some r.runtime }

/-- `s.setdefault(k, None)` on one field: a present value is kept, an
absent key becomes present with value `None`. -/
def setdefaultF (v : Option (Option String)) : Option (Option String) :=
  match v with
  | none => some none
  | some x => some x

/-- The no-API-key path (scrape.py lines 523-526): `setdefault` every
enrichment key. -/
def applyDefaults (s : Show) : Show :=
  { s with
    omdbRating := setdefaultF s.omdbRating
    omdbVotes := setdefaultF s.omdbVotes
    imdbID := setdefaultF s.imdbID
    omdbPoster := setdefaultF s.omdbPoster
    rtRating := setdefaultF s.rtRating
    mcRating := setdefaultF s.mcRating
    runtime := setdefaultF s.runtime }

/-- `data.get(k)` where `data` is the (possibly empty) fetch result. -/
def dget (d : Option Enrichment) (f : Enrichment → Option String) :
    Option String :=
  match d with
  | none => none
  | some e => f e

/-- The copy-into-the-card loop (scrape.py lines 538-542): every
enrichment key becomes present, `imdbRating`/`imdbVotes` renamed to
`omdbRating`/`omdbVotes`. -/
def applyFetched (s : Show) (d : Option Enrichment) : Show :=
  { s with
    omdbRating := some (dget d Enrichment.imdbRating)
    omdbVotes := some (dget d Enrichment.imdbVotes)
    imdbID := some (dget d Enrichment.imdbID)
    omdbPoster := some (dget d Enrichment.omdbPoster)
    rtRating := some (dget d Enrichment.rtRating)
    mcRating := some (dget d Enrichment.mcRating)
    runtime := some (dget d Enrichment.runtime) }

/-- The `INSERT OR REPLACE` parameter tuple (scrape.py lines 550-555):
`s.get(k)` of each enrichment key after the copy. -/
def rowOf (s : Show) : CacheRow :=
  { omdbRating := s.omdbRating.join
    omdbVotes := s.omdbVotes.join
    imdbID := s.imdbID.join
    omdbPoster := s.omdbPoster.join
    rtRating := s.rtRating.join
    mcRating := s.mcRating.join
    runtime := s.runtime.join }

/-- The result of one `enrich_with_omdb` run: the mutated show list, the
cache after the run, the number of OMDb HTTP GETs issued and the number
of cache upserts executed. -/
structure EnrichResult where
  shows : List Show
  cache : Cache
  apiCalls : Nat
  upserts : Nat
deriving DecidableEq, Repr

/-- Phase 1 of `enrich_with_omdb` for one show (scrape.py lines 499-513):
hydrate it from today's cache row when present and tag it `true` (hit) or
`false` (miss, i.e. appended to the `missing` list). -/
def tagOne (cache : Cache) (today : String) (s : Show) : Show × Bool :=
  match cacheLookup cache s.slug today with
  | some r => (hydrate s r, true)
  | none => (s, false)

/-- Phase 1 of `enrich_with_omdb` over the whole show list. -/
def tagShows (cache : Cache) (today : String) (shows : List Show) :
    List (Show × Bool) :=
  shows.map (tagOne cache today)

/-- Phase 2 of `enrich_with_omdb` (scrape.py lines 529-556): for each
miss, one `fetch_omdb_data` call, the copy onto the card, and one upsert
of the resulting row into the cache; hits pass through untouched. -/
def enrichGo (oracle : OmdbOracle) (today : String) :
    List (Show × Bool) → Cache → EnrichResult
  | [], c => ⟨[], c, 0, 0⟩
  | (s, hit) :: rest, c =>
      if hit then
        let r := enrichGo oracle today rest c
        ⟨s :: r.shows, r.cache, r.apiCalls, r.upserts⟩
      else
        let data := fetch_omdb_data oracle s.title s.year
        let s2 := applyFetched s data
        let c2 := cacheUpsert c s.slug today (rowOf s2)
        let r := enrichGo oracle today rest c2
        ⟨s2 :: r.shows, r.cache,
          (fetch_omdb_queries oracle s.title s.year).length + r.apiCalls,
          r.upserts + 1⟩

/-- `enrich_with_omdb(shows, api_key)` (scrape.py lines 487-556) with the
implicit state made explicit: `today`, the cache and the OMDb oracle are
parameters, and the mutations are returned.  When every show is a cache
hit the function returns early with no API call and no write; when no key
is configured the misses only get `setdefault(None)` treatment. -/
def enrich_with_omdb (oracle : OmdbOracle) (today : String)
    (api_key : Option String) (shows : List Show) (cache : Cache) :
    EnrichResult :=
  if (tagShows cache today shows).all (fun p => p.2) then
    ⟨(tagShows cache today shows).map (fun p => p.1), cache, 0, 0⟩
  else
    match api_key with
    | none =>
        ⟨(tagShows cache today shows).map
          (fun p => if p.2 then p.1 else applyDefaults p.1), cache, 0, 0⟩
    | some _ => enrichGo oracle today (tagShows cache today shows) cache

/-! ## Leak phase of `main` (scrape.py lines 1995-2008) -/

/-- `s.get("imdbID")` under Python truthiness: the value when the key is
present, non-`None` and non-empty. -/
def truthyId (s : Show) : Option String :=
  match s.imdbID with
  | some (some v) => if v = "" then none else some v
  | _ => none

/-- `leaks.get(key, False)` over the collected `{imdb_id: bool}` dict. -/
def lookupLeaks (leaks : List (String × Bool)) : Option String → Bool
  | none => false
  | some i =>
      match leaks.find? (fun p => p.1 == i) with
      | some p => p.2
      | none => false

/-- The leak-phase result: the annotated shows and the number of apibay
queries issued. -/
structure LeakResult where
  shows : List Show
  queries : Nat
deriving DecidableEq, Repr

/-- The leak block of `main`: collect the truthy external ids, query
apibay once per id occurrence (the worker pool is serialised; there is no
cache), then annotate every show with `leaks.get(s.get("imdbID"),
False)`. -/
def leakPhase (oracle : String → Except Unit (List TorrentHit))
    (shows : List Show) : LeakResult :=
  let ids := shows.filterMap truthyId
  let leaks := ids.map (fun i => (i, check_leak (oracle i)))
  ⟨shows.map (fun s => { s with isLeaked := lookupLeaks leaks s.imdbID.join }),
    ids.length⟩

/-! ## Helper lemmas -/

theorem storeLookup_cons_self (st : MarkerStore) (slug : String) (q : ℚ) :
    storeLookup ((slug, q) :: st) slug = some q := by
  simp [storeLookup]

/-! ## Claims about the lifecycle trackers -/

/-- Claim C10: calling the bookable or coming-soon lifecycle tracker with a
false predicate returns `(float('inf'), False)` and leaves the marker store
entirely unchanged, whatever the store holds for that identity. -/
theorem claim_C10 (st : MarkerStore) (now : ℚ) (slug : String) :
    register_and_age_bookable st now slug false = ((HoursVal.inf, false), st)
    ∧ register_and_age_soon st now slug false = ((HoursVal.inf, false), st) :=
  ⟨rfl, rfl⟩

/-- Claim C6: for an identity with no stored marker, the first
coming-soon (resp. bookable) tracker call with a true predicate persists
the current time and returns `(0.0, True)`; a later call with a true
predicate leaves the store unchanged and returns the elapsed hours
together with the under-window test, so once the elapsed hours exceed the
window the flag is `False`. -/
theorem claim_C6 (st stB : MarkerStore) (now now2 : ℚ) (slug : String)
    (h : storeLookup st slug = none) (hB : storeLookup stB slug = none) :
    (register_and_age_soon st now slug true = ((HoursVal.fin 0, true), (slug, now) :: st)
      ∧ (register_and_age_soon ((slug, now) :: st) now2 slug true).2 = (slug, now) :: st
      ∧ (register_and_age_soon ((slug, now) :: st) now2 slug true).1
          = (HoursVal.fin ((now2 - now) / 3600), decide ((now2 - now) / 3600 < NEW_SOON_HOURS))
      ∧ ((now2 - now) / 3600 > NEW_SOON_HOURS →
          (register_and_age_soon ((slug, now) :: st) now2 slug true).1
            = (HoursVal.fin ((now2 - now) / 3600), false)))
    ∧ (register_and_age_bookable stB now slug true = ((HoursVal.fin 0, true), (slug, now) :: stB)
      ∧ (register_and_age_bookable ((slug, now) :: stB) now2 slug true).2 = (slug, now) :: stB
      ∧ (register_and_age_bookable ((slug, now) :: stB) now2 slug true).1
          = (HoursVal.fin ((now2 - now) / 3600), decide ((now2 - now) / 3600 < NEW_BOOKABLE_HOURS))
      ∧ ((now2 - now) / 3600 > NEW_BOOKABLE_HOURS →
          (register_and_age_bookable ((slug, now) :: stB) now2 slug true).1
            = (HoursVal.fin ((now2 - now) / 3600), false))) := by
  constructor
  · refine ⟨by simp [register_and_age_soon, h], ?_, ?_, ?_⟩
    · simp [register_and_age_soon, storeLookup_cons_self]
    · simp [register_and_age_soon, storeLookup_cons_self]
    · intro hw
      simp only [register_and_age_soon, Bool.not_true, storeLookup_cons_self]
      have : ¬ ((now2 - now) / 3600 < NEW_SOON_HOURS) := not_lt.mpr (le_of_lt hw)
      simp [this]
  · refine ⟨by simp [register_and_age_bookable, hB], ?_, ?_, ?_⟩
    · simp [register_and_age_bookable, storeLookup_cons_self]
    · simp [register_and_age_bookable, storeLookup_cons_self]
    · intro hw
      simp only [register_and_age_bookable, Bool.not_true, storeLookup_cons_self]
      have : ¬ ((now2 - now) / 3600 < NEW_BOOKABLE_HOURS) := not_lt.mpr (le_of_lt hw)
      simp [this]

/-- Witness for C6: a fresh identity registered at time 0 (seconds) and
observed again 90000 seconds (25 hours) later — past the 24-hour
coming-soon window. -/
theorem claim_C6_witness :
    register_and_age_soon [] 0 "x" true = ((HoursVal.fin 0, true), [("x", 0)])
    ∧ (register_and_age_soon [("x", 0)] 90000 "x" true).1
        = (HoursVal.fin ((90000 - 0) / 3600), false) := by
  refine ⟨(claim_C6 [] [] 0 90000 "x" rfl rfl).1.1, ?_⟩
  exact (claim_C6 [] [] 0 90000 "x" rfl rfl).1.2.2.2
    (by norm_num [NEW_SOON_HOURS])

/-! ## Claims about the Source Fetcher -/

/-- Claim C7: the fetcher tries page sizes in the given (descending)
order and returns the first non-empty item list, attempting no further
page size; an error on one page size moves on to the next; and when every
page size of `PAGE_SIZES` errors or yields zero items the run terminates
(modelled as `none`) with no output written by `main`. -/
theorem claim_C7 :
    (∀ (oracle : Nat → Except Unit (List String)) (l : List String) (sz : Nat) (rest : List Nat),
        oracle sz = Except.ok l → l ≠ [] →
        fetchGo oracle (sz :: rest) = some l ∧ fetchAttempts oracle (sz :: rest) = [sz])
    ∧ (∀ (oracle : Nat → Except Unit (List String)) (sz : Nat) (rest : List Nat),
        (oracle sz = Except.error () ∨ oracle sz = Except.ok []) →
        fetchGo oracle (sz :: rest) = fetchGo oracle rest)
    ∧ (∀ (oracle : Nat → Except Unit (List String)),
        (∀ sz ∈ PAGE_SIZES, oracle sz = Except.error () ∨ oracle sz = Except.ok []) →
        fetch_shows oracle = none
        ∧ ∀ (zone : List String) (fetchOk : String → Bool),
            mainRun oracle zone fetchOk = none) := by
  refine ⟨?_, ?_, ?_⟩
  · intro oracle l sz rest h hne
    cases l with
    | nil => exact absurd rfl hne
    | cons a t => exact ⟨by simp [fetchGo, h], by simp [fetchAttempts, h]⟩
  · intro oracle sz rest h
    rcases h with h | h <;> simp [fetchGo, h]
  · intro oracle h
    have hnone : fetch_shows oracle = none := by
      rcases h 100 (by simp [PAGE_SIZES]) with h100 | h100 <;>
        rcases h 50 (by simp [PAGE_SIZES]) with h50 | h50 <;>
          rcases h 20 (by simp [PAGE_SIZES]) with h20 | h20 <;>
            simp [fetch_shows, PAGE_SIZES, fetchGo, h100, h50, h20]
    exact ⟨hnone, fun zone fetchOk => by simp [mainRun, hnone]⟩

/-- Witness for C7: an oracle answering `["a"]` is accepted at the first
page size, and the all-errors oracle makes the run terminate with no
output. -/
theorem claim_C7_witness :
    (fetchGo (fun _ => Except.ok ["a"]) (100 :: [50, 20]) = some ["a"]
      ∧ fetchAttempts (fun _ => Except.ok ["a"]) (100 :: [50, 20]) = [100])
    ∧ fetch_shows (fun _ => Except.error ()) = none
    ∧ mainRun (fun _ => Except.error ()) ["a"] (fun _ => true) = none := by
  refine ⟨claim_C7.1 (fun _ => Except.ok ["a"]) ["a"] 100 [50, 20] rfl (by simp), ?_, ?_⟩
  · exact (claim_C7.2.2 (fun _ => Except.error ()) (fun _ _ => Or.inl rfl)).1
  · exact (claim_C7.2.2 (fun _ => Except.error ()) (fun _ _ => Or.inl rfl)).2 ["a"] (fun _ => true)

/-! ## Claims about the Scope Filter -/

/-- Counterexample to claim C2 as stated: with an empty catalog, a zone
listing `["a"]` and a succeeding single-show fetch, the slug `"a"` —
present only in the zone listing, hence outside the catalog∩zone
intersection — is carried into the pipeline output, because `main`
injects a stub for every zone slug after the filter. -/
theorem claim_C2_counterexample :
    "a" ∈ pipelineSlugs [] ["a"] (fun _ => true)
    ∧ "a" ∉ scopeFilter [] ["a"]
    ∧ "a" ∉ ([] : List String) := by
  decide

/-- Claim C2 amended: the Scope Filter stage itself outputs exactly the
catalog∩zone intersection, but the zone-stub injection that follows makes
the slug set carried into the output exactly the zone slugs whose
single-show fetch succeeds (so a slug present only in the zone listing
appears in the output whenever its fetch succeeds). -/
theorem claim_C2_amended :
    ∀ (catalog zone : List String) (x : String),
      (x ∈ scopeFilter catalog zone ↔ x ∈ catalog ∧ x ∈ zone)
      ∧ ∀ (fetchOk : String → Bool),
          (x ∈ pipelineSlugs catalog zone fetchOk ↔ x ∈ zone ∧ fetchOk x = true) := by
  intro catalog zone x
  have hfilter : x ∈ scopeFilter catalog zone ↔ x ∈ catalog ∧ x ∈ zone := by
    simp [scopeFilter, List.mem_filter]
  refine ⟨hfilter, fun fetchOk => ?_⟩
  have hkeys : x ∈ slugKeys (scopeFilter catalog zone) zone ↔ x ∈ zone := by
    by_cases hx : x ∈ scopeFilter catalog zone
    · simp only [slugKeys, List.mem_append, List.mem_dedup]
      exact ⟨fun _ => (hfilter.mp hx).2, fun _ => Or.inl hx⟩
    · simp [slugKeys, List.mem_append, List.mem_dedup, List.mem_filter, hx]
  simp only [pipelineSlugs, List.mem_filter, hkeys]

/-! ## Claims about the leak check -/

theorem truthyId_ne_empty {s : Show} {v : String} (h : truthyId s = some v) :
    v ≠ "" := by
  rcases hid : s.imdbID with _ | w
  · simp [truthyId, hid] at h
  · rcases w with _ | u
    · simp [truthyId, hid] at h
    · by_cases hu : u = ""
      · simp [truthyId, hid, hu] at h
      · simp only [truthyId, hid] at h
        rw [if_neg hu] at h
        cases h
        exact hu

theorem truthyId_eq_some {s : Show} {v : String} (h : truthyId s = some v) :
    s.imdbID = some (some v) := by
  rcases hid : s.imdbID with _ | w
  · simp [truthyId, hid] at h
  · rcases w with _ | u
    · simp [truthyId, hid] at h
    · by_cases hu : u = ""
      · simp [truthyId, hid, hu] at h
      · simp only [truthyId, hid] at h
        rw [if_neg hu] at h
        cases h
        rfl

theorem truthyId_none_join {s : Show} (h : truthyId s = none) :
    s.imdbID.join = none ∨ s.imdbID.join = some "" := by
  rcases hid : s.imdbID with _ | w
  · left; rfl
  · rcases w with _ | u
    · left; rfl
    · by_cases hu : u = ""
      · right; rw [hu]; rfl
      · simp only [truthyId, hid] at h
        rw [if_neg hu] at h
        cases h

theorem find?_map_key {α β : Type} [BEq α] [LawfulBEq α]
    (ids : List α) (f : α → β) (v : α) (hv : v ∈ ids) :
    (ids.map (fun i => (i, f i))).find? (fun p => p.1 == v) = some (v, f v) := by
  induction ids with
  | nil => cases hv
  | cons i rest ih =>
      simp only [List.map_cons]
      by_cases hiv : i = v
      · subst hiv
        rw [List.find?_cons_of_pos _ (by simp)]
      · rw [List.find?_cons_of_neg _ (by simp [hiv])]
        have hv' : v ∈ rest := by
          cases hv with
          | head => exact absurd rfl hiv
          | tail _ h => exact h
        exact ih hv'

/-- Claim C8: the leak phase queries apibay once per item with a truthy
external id (no cache is involved, so the count is a function of the
items alone), annotates each item with the oracle's answer — `false` when
the id is absent/empty, with no query for such an item — and `check_leak`
turns any transport error into `false` and a hit list into the existence
of a vip-status entry with a matching release-tag name, never raising and
never retrying. -/
theorem claim_C8 (oracle : String → Except Unit (List TorrentHit))
    (shows : List Show) :
    (leakPhase oracle shows).queries = (shows.filterMap truthyId).length
    ∧ (leakPhase oracle shows).shows.length = shows.length
    ∧ (∀ (i : Nat) (h1 : i < shows.length)
        (h2 : i < (leakPhase oracle shows).shows.length),
        (truthyId shows[i] = none → ((leakPhase oracle shows).shows[i]).isLeaked = false)
        ∧ ∀ v, truthyId shows[i] = some v →
            ((leakPhase oracle shows).shows[i]).isLeaked = check_leak (oracle v))
    ∧ check_leak (Except.error ()) = false
    ∧ (∀ ts : List TorrentHit, check_leak (Except.ok ts) = true ↔
        ∃ t ∈ ts, t.status = some "vip" ∧ leakNameHit (t.name.getD "") = true) := by
  refine ⟨rfl, by simp [leakPhase], ?_, rfl, ?_⟩
  · intro i h1 h2
    have hget : (leakPhase oracle shows).shows[i]
        = { shows[i] with
            isLeaked := lookupLeaks
              ((shows.filterMap truthyId).map (fun j => (j, check_leak (oracle j))))
              (shows[i].imdbID.join) } := by
      simp [leakPhase]
    constructor
    · intro hnone
      rw [hget]
      rcases truthyId_none_join hnone with hj | hj
      · rw [hj]
        rfl
      · rw [hj]
        have hnil : ∀ p ∈ (shows.filterMap truthyId).map
            (fun j => (j, check_leak (oracle j))), ¬ (p.1 == "") = true := by
          intro p hp
          rcases List.mem_map.mp hp with ⟨j, hj2, hpj⟩
          rcases List.mem_filterMap.mp hj2 with ⟨s, _, hs⟩
          have hne := truthyId_ne_empty hs
          subst hpj
          simpa using hne
        simp [lookupLeaks, List.find?_eq_none.mpr hnil]
    · intro v hv
      rw [hget]
      have hjoin : shows[i].imdbID.join = some v := by
        rw [truthyId_eq_some hv]
        rfl
      rw [hjoin]
      have hmem : v ∈ shows.filterMap truthyId :=
        List.mem_filterMap.mpr ⟨shows[i], by simp, hv⟩
      simp [lookupLeaks, find?_map_key _ _ _ hmem]
  · intro ts
    simp only [check_leak, List.any_eq_true, Bool.and_eq_true, beq_iff_eq]

/-- Witness for C8: one item with id `"tt1"` (queried, leaked through a
vip BluRay hit), one item with an absent id (not leaked, no query). -/
theorem claim_C8_witness :
    (leakPhase
      (fun _ => Except.ok [⟨some "vip", some "Dune.2024.BluRay.x264"⟩])
      [⟨"a", "A", none, none, none, some (some "tt1"), none, none, none, none, false⟩,
       ⟨"b", "B", none, none, none, none, none, none, none, none, false⟩]).queries = 1
    ∧ ((leakPhase
      (fun _ => Except.ok [⟨some "vip", some "Dune.2024.BluRay.x264"⟩])
      [⟨"a", "A", none, none, none, some (some "tt1"), none, none, none, none, false⟩,
       ⟨"b", "B", none, none, none, none, none, none, none, none, false⟩]).shows.get ⟨0, by decide⟩).isLeaked
        = check_leak (Except.ok [⟨some "vip", some "Dune.2024.BluRay.x264"⟩])
    ∧ ((leakPhase
      (fun _ => Except.ok [⟨some "vip", some "Dune.2024.BluRay.x264"⟩])
      [⟨"a", "A", none, none, none, some (some "tt1"), none, none, none, none, false⟩,
       ⟨"b", "B", none, none, none, none, none, none, none, none, false⟩]).shows.get ⟨1, by decide⟩).isLeaked = false := by
  have h := claim_C8
    (fun _ => Except.ok [⟨some "vip", some "Dune.2024.BluRay.x264"⟩])
    [⟨"a", "A", none, none, none, some (some "tt1"), none, none, none, none, false⟩,
     ⟨"b", "B", none, none, none, none, none, none, none, none, false⟩]
  refine ⟨by decide, ?_, ?_⟩
  · simpa [List.get_eq_getElem] using (h.2.2.1 0 (by decide) (by decide)).2 "tt1" (by decide)
  · simpa [List.get_eq_getElem] using (h.2.2.1 1 (by decide) (by decide)).1 (by decide)

/-! ## Claims about the OMDb lookup retry logic -/

/-- Claim C3: with a supplied year Y the rating lookup never issues a
query for year Y−2 (and issues at most two queries); when the provider
answers "Movie not found!" for Y and succeeds for Y−1 the Y−1 result is
returned after exactly the two queries [Y, Y−1]; a non-success response
whose error is not the "not found" sentinel yields the empty result after
the single query [Y]; and a second failure after the retry (error or
non-success) yields the empty result. -/
theorem claim_C3 (oracle : OmdbOracle) (title : String) (y : Int) :
    (some (y - 2) ∉ fetch_omdb_queries oracle title (some y)
      ∧ (fetch_omdb_queries oracle title (some y)).length ≤ 2)
    ∧ (∀ d d2, oracle title (some y) = Except.ok d → omdbSuccess d = false →
        errStr d = "Movie not found!" →
        oracle title (some (y - 1)) = Except.ok d2 → omdbSuccess d2 = true →
        fetch_omdb_data oracle title (some y) = some (extractFields d2)
        ∧ fetch_omdb_queries oracle title (some y) = [some y, some (y - 1)])
    ∧ (∀ d, oracle title (some y) = Except.ok d → omdbSuccess d = false →
        errStr d ≠ "Movie not found!" →
        fetch_omdb_data oracle title (some y) = none
        ∧ fetch_omdb_queries oracle title (some y) = [some y])
    ∧ (∀ d, oracle title (some y) = Except.ok d → omdbSuccess d = false →
        errStr d = "Movie not found!" →
        oracle title (some (y - 1)) = Except.error () →
        fetch_omdb_data oracle title (some y) = none)
    ∧ (∀ d d2, oracle title (some y) = Except.ok d → omdbSuccess d = false →
        errStr d = "Movie not found!" →
        oracle title (some (y - 1)) = Except.ok d2 → omdbSuccess d2 = false →
        fetch_omdb_data oracle title (some y) = none) := by
  refine ⟨⟨?_, ?_⟩, ?_, ?_, ?_, ?_⟩
  · unfold fetch_omdb_queries
    rcases oracle title (some y) with _ | d
    · simp only [List.mem_singleton]
      intro h
      have := Option.some.inj h
      omega
    · by_cases hs : omdbSuccess d = true
      · simp only [hs, if_true, List.mem_singleton]
        intro h
        have := Option.some.inj h
        omega
      · rw [Bool.not_eq_true] at hs
        by_cases he : (errStr d == "Movie not found!") = true
        · simp only [hs, Bool.false_eq_true, if_false, he, if_true, List.mem_cons,
            List.not_mem_nil, or_false]
          rintro (h | h)
          · have := Option.some.inj h; omega
          · have := Option.some.inj h; omega
        · rw [Bool.not_eq_true] at he
          simp only [hs, Bool.false_eq_true, if_false, he, List.mem_singleton]
          intro h
          have := Option.some.inj h
          omega
  · unfold fetch_omdb_queries
    rcases oracle title (some y) with _ | d
    · simp
    · by_cases hs : omdbSuccess d = true
      · simp [hs]
      · rw [Bool.not_eq_true] at hs
        by_cases he : (errStr d == "Movie not found!") = true <;>
          simp [hs, he]
  · intro d d2 h1 h2 h3 h4 h5
    have he : (errStr d == "Movie not found!") = true := by
      simp [h3]
    constructor
    · simp [fetch_omdb_data, h1, h2, he, h4, h5]
    · simp [fetch_omdb_queries, h1, h2, he]
  · intro d h1 h2 h3
    have he : (errStr d == "Movie not found!") = false := beq_eq_false_iff_ne.mpr h3
    constructor
    · simp [fetch_omdb_data, h1, h2, he]
    · simp [fetch_omdb_queries, h1, h2, he]
  · intro d h1 h2 h3 h4
    have he : (errStr d == "Movie not found!") = true := by
      simp [h3]
    simp [fetch_omdb_data, h1, h2, he, h4]
  · intro d d2 h1 h2 h3 h4 h5
    have he : (errStr d == "Movie not found!") = true := by
      simp [h3]
    simp [fetch_omdb_data, h1, h2, he, h4, h5]

/-- Witness for C3: a provider that answers "Movie not found!" for year
2000 and succeeds for 1999; the lookup returns the 1999 extraction after
exactly the queries [2000, 1999]. -/
theorem claim_C3_witness :
    fetch_omdb_data
        (fun _ yo => if yo = some 1999
          then Except.ok ⟨some "True", none, [], some "7.1", some "1000", some "tt1", none, some "100 min"⟩
          else Except.ok ⟨some "False", some "Movie not found!", [], none, none, none, none, none⟩)
        "t" (some 2000)
      = some (extractFields ⟨some "True", none, [], some "7.1", some "1000", some "tt1", none, some "100 min"⟩)
    ∧ fetch_omdb_queries
        (fun _ yo => if yo = some 1999
          then Except.ok ⟨some "True", none, [], some "7.1", some "1000", some "tt1", none, some "100 min"⟩
          else Except.ok ⟨some "False", some "Movie not found!", [], none, none, none, none, none⟩)
        "t" (some 2000)
      = [some 2000, some (2000 - 1)] :=
  (claim_C3
    (fun _ yo => if yo = some 1999
      then Except.ok ⟨some "True", none, [], some "7.1", some "1000", some "tt1", none, some "100 min"⟩
      else Except.ok ⟨some "False", some "Movie not found!", [], none, none, none, none, none⟩)
    "t" 2000).2.1
    ⟨some "False", some "Movie not found!", [], none, none, none, none, none⟩
    ⟨some "True", none, [], some "7.1", some "1000", some "tt1", none, some "100 min"⟩
    rfl rfl rfl rfl rfl

/-! ## Lemmas about the daily cache -/

theorem cacheLookup_upsert_self (c : Cache) (slug day : String) (r : CacheRow) :
    cacheLookup (cacheUpsert c slug day r) slug day = some r := by
  simp [cacheUpsert, cacheLookup]

theorem cacheLookup_delete_ne (c : Cache) (slug day s d : String)
    (h : ¬(s = slug ∧ d = day)) :
    cacheLookup (cacheDelete c slug day) s d = cacheLookup c s d := by
  induction c with
  | nil => rfl
  | cons e rest ih =>
      simp only [cacheDelete, cacheLookup]
      by_cases hk : e.1.1 = slug ∧ e.1.2 = day
      · have hm : ¬(e.1.1 = s ∧ e.1.2 = d) := fun hc =>
          h ⟨hc.1.symm.trans hk.1, hc.2.symm.trans hk.2⟩
        rw [if_pos hk, if_neg hm, ih]
      · rw [if_neg hk]
        by_cases hm : e.1.1 = s ∧ e.1.2 = d
        · simp only [cacheLookup]
          rw [if_pos hm, if_pos hm]
        · simp only [cacheLookup]
          rw [if_neg hm, if_neg hm, ih]

theorem cacheLookup_upsert_ne (c : Cache) (slug day s d : String) (r : CacheRow)
    (h : ¬(s = slug ∧ d = day)) :
    cacheLookup (cacheUpsert c slug day r) s d = cacheLookup c s d := by
  rw [cacheUpsert, cacheLookup,
    if_neg (fun hc => h ⟨hc.1.symm, hc.2.symm⟩), cacheLookup_delete_ne _ _ _ _ _ h]

theorem cacheLookup_upsert_isSome (c : Cache) (slug day s d : String) (r : CacheRow)
    (h : (cacheLookup c s d).isSome = true) :
    (cacheLookup (cacheUpsert c slug day r) s d).isSome = true := by
  by_cases hk : s = slug ∧ d = day
  · rcases hk with ⟨h1, h2⟩
    subst h1
    subst h2
    rw [cacheLookup_upsert_self]
    rfl
  · rw [cacheLookup_upsert_ne _ _ _ _ _ _ hk]
    exact h

/-- At most one row per `(slug, day)` key — the invariant the SQLite
`PRIMARY KEY(slug, yyyymmdd)` enforces. -/
def CacheUnique (c : Cache) : Prop :=
  ∀ slug day, c.countP (fun e => decide (e.1.1 = slug ∧ e.1.2 = day)) ≤ 1

theorem countP_delete_self (c : Cache) (slug day : String) :
    (cacheDelete c slug day).countP
      (fun e => decide (e.1.1 = slug ∧ e.1.2 = day)) = 0 := by
  induction c with
  | nil => rfl
  | cons e rest ih =>
      simp only [cacheDelete]
      by_cases hk : e.1.1 = slug ∧ e.1.2 = day
      · rw [if_pos hk]
        exact ih
      · rw [if_neg hk, List.countP_cons_of_neg _ _ (by simpa using hk)]
        exact ih

theorem countP_delete_le (c : Cache) (slug day s d : String) :
    (cacheDelete c slug day).countP
        (fun e => decide (e.1.1 = s ∧ e.1.2 = d))
      ≤ c.countP (fun e => decide (e.1.1 = s ∧ e.1.2 = d)) := by
  induction c with
  | nil => exact Nat.le_refl 0
  | cons e rest ih =>
      simp only [cacheDelete]
      by_cases hk : e.1.1 = slug ∧ e.1.2 = day
      · rw [if_pos hk]
        refine Nat.le_trans ih ?_
        rw [List.countP_cons]
        exact Nat.le_add_right _ _
      · rw [if_neg hk, List.countP_cons, List.countP_cons]
        exact Nat.add_le_add_right ih _

theorem CacheUnique_upsert (c : Cache) (slug day : String) (r : CacheRow)
    (h : CacheUnique c) : CacheUnique (cacheUpsert c slug day r) := by
  intro s d
  by_cases hk : slug = s ∧ day = d
  · rcases hk with ⟨h1, h2⟩
    subst h1
    subst h2
    rw [cacheUpsert, List.countP_cons_of_pos _ _ (by simp), countP_delete_self]
  · rw [cacheUpsert, List.countP_cons_of_neg _ _ (by simpa using hk)]
    exact Nat.le_trans (countP_delete_le _ _ _ _ _) (h s d)

/-! ## Lemmas about phase 2 of the merger -/

theorem tagOne_snd (cache : Cache) (today : String) (s : Show) :
    (tagOne cache today s).2 = (cacheLookup cache s.slug today).isSome := by
  cases h : cacheLookup cache s.slug today <;> simp [tagOne, h]

theorem tagOne_miss (cache : Cache) (today : String) (s : Show)
    (h : cacheLookup cache s.slug today = none) :
    tagOne cache today s = (s, false) := by
  simp [tagOne, h]

theorem tagOne_hit (cache : Cache) (today : String) (s : Show) (r : CacheRow)
    (h : cacheLookup cache s.slug today = some r) :
    tagOne cache today s = (hydrate s r, true) := by
  simp [tagOne, h]

theorem enrichGo_shows (oracle : OmdbOracle) (today : String)
    (l : List (Show × Bool)) (c : Cache) :
    (enrichGo oracle today l c).shows
      = l.map (fun p => if p.2 then p.1
          else applyFetched p.1 (fetch_omdb_data oracle p.1.title p.1.year)) := by
  induction l generalizing c with
  | nil => rfl
  | cons p rest ih =>
      rcases p with ⟨s, hit⟩
      cases hit <;> simp [enrichGo, ih]

theorem enrichGo_apiCalls (oracle : OmdbOracle) (today : String)
    (l : List (Show × Bool)) (c : Cache) :
    (enrichGo oracle today l c).apiCalls
      = ((l.filter (fun p => !p.2)).map
          (fun p => (fetch_omdb_queries oracle p.1.title p.1.year).length)).sum := by
  induction l generalizing c with
  | nil => rfl
  | cons p rest ih =>
      rcases p with ⟨s, hit⟩
      cases hit <;> simp [enrichGo, ih]

theorem enrichGo_upserts (oracle : OmdbOracle) (today : String)
    (l : List (Show × Bool)) (c : Cache) :
    (enrichGo oracle today l c).upserts = l.countP (fun p => !p.2) := by
  induction l generalizing c with
  | nil => rfl
  | cons p rest ih =>
      rcases p with ⟨s, hit⟩
      cases hit <;> simp [enrichGo, ih, List.countP_cons]

theorem enrichGo_cache_isSome (oracle : OmdbOracle) (today : String)
    (l : List (Show × Bool)) (c : Cache) (s d : String)
    (h : (cacheLookup c s d).isSome = true) :
    (cacheLookup (enrichGo oracle today l c).cache s d).isSome = true := by
  induction l generalizing c with
  | nil => exact h
  | cons p rest ih =>
      rcases p with ⟨s0, hit⟩
      cases hit
      · simpa [enrichGo] using
          ih _ (cacheLookup_upsert_isSome _ _ _ _ _ _ h)
      · simpa [enrichGo] using ih _ h

theorem enrichGo_cache_mem (oracle : OmdbOracle) (today : String)
    (l : List (Show × Bool)) (c : Cache) (p : Show × Bool)
    (hp : p ∈ l) (hmiss : p.2 = false) :
    (cacheLookup (enrichGo oracle today l c).cache p.1.slug today).isSome = true := by
  induction l generalizing c with
  | nil => cases hp
  | cons q rest ih =>
      rcases q with ⟨s0, hit⟩
      rcases List.mem_cons.mp hp with hq | hq
      · subst hq
        have hf : hit = false := hmiss
        subst hf
        simpa [enrichGo] using
          enrichGo_cache_isSome oracle today rest
            (cacheUpsert c s0.slug today
              (rowOf (applyFetched s0 (fetch_omdb_data oracle s0.title s0.year))))
            s0.slug today (by rw [cacheLookup_upsert_self]; rfl)
      · cases hit
        · simpa [enrichGo] using ih _ hq
        · simpa [enrichGo] using ih _ hq

theorem CacheUnique_enrichGo (oracle : OmdbOracle) (today : String)
    (l : List (Show × Bool)) (c : Cache) (h : CacheUnique c) :
    CacheUnique (enrichGo oracle today l c).cache := by
  induction l generalizing c with
  | nil => exact h
  | cons p rest ih =>
      rcases p with ⟨s0, hit⟩
      cases hit
      · simpa [enrichGo] using ih _ (CacheUnique_upsert _ _ _ _ h)
      · simpa [enrichGo] using ih _ h

theorem enrichGo_allHit (oracle : OmdbOracle) (today : String)
    (l : List (Show × Bool)) (c : Cache) (h : l.all (fun p => p.2) = true) :
    enrichGo oracle today l c = ⟨l.map (fun p => p.1), c, 0, 0⟩ := by
  induction l generalizing c with
  | nil => rfl
  | cons p rest ih =>
      rcases p with ⟨s, hit⟩
      simp only [List.all_cons, Bool.and_eq_true] at h
      cases hit
      · cases h.1
      · simp [enrichGo, ih _ h.2]

theorem countP_ext {α : Type} (l : List α) (p q : α → Bool)
    (h : ∀ a ∈ l, p a = q a) : l.countP p = l.countP q := by
  induction l with
  | nil => rfl
  | cons a t ih =>
      rw [List.countP_cons, List.countP_cons, h a (by simp),
        ih (fun b hb => h b (by simp [hb]))]

theorem enrich_eq_allHit (oracle : OmdbOracle) (today : String)
    (api_key : Option String) (shows : List Show) (cache : Cache)
    (hall : (tagShows cache today shows).all (fun p => p.2) = true) :
    enrich_with_omdb oracle today api_key shows cache
      = ⟨(tagShows cache today shows).map (fun p => p.1), cache, 0, 0⟩ := by
  unfold enrich_with_omdb
  rw [if_pos hall]

theorem enrich_eq_go (oracle : OmdbOracle) (today key : String)
    (shows : List Show) (cache : Cache)
    (hall : ¬ (tagShows cache today shows).all (fun p => p.2) = true) :
    enrich_with_omdb oracle today (some key) shows cache
      = enrichGo oracle today (tagShows cache today shows) cache := by
  unfold enrich_with_omdb
  rw [if_neg hall]

theorem enrich_eq_noKey (oracle : OmdbOracle) (today : String)
    (shows : List Show) (cache : Cache)
    (hall : ¬ (tagShows cache today shows).all (fun p => p.2) = true) :
    enrich_with_omdb oracle today none shows cache
      = ⟨(tagShows cache today shows).map
          (fun p => if p.2 then p.1 else applyDefaults p.1), cache, 0, 0⟩ := by
  unfold enrich_with_omdb
  rw [if_neg hall]

/-! ## Claims about the cache discipline of the merger -/

/-- Claim C4: with an API key configured, one run of the merger performs
exactly one cache upsert per item lacking a same-day hit (and none for
hits), keeps the cache free of duplicate `(slug, day)` keys, leaves every
item's `(slug, today)` key present afterwards, and a second same-day run
over the same items early-returns: it changes nothing in the cache and
issues zero provider calls and zero upserts. -/
theorem claim_C4 (oracle : OmdbOracle) (today key : String) (shows : List Show)
    (cache : Cache) (r1 : EnrichResult) (hU : CacheUnique cache)
    (hr : r1 = enrich_with_omdb oracle today (some key) shows cache) :
    r1.upserts = shows.countP (fun s => (cacheLookup cache s.slug today).isNone)
    ∧ CacheUnique r1.cache
    ∧ (∀ s ∈ shows, (cacheLookup r1.cache s.slug today).isSome = true)
    ∧ enrich_with_omdb oracle today (some key) shows r1.cache
        = ⟨(tagShows r1.cache today shows).map (fun p => p.1), r1.cache, 0, 0⟩ := by
  subst hr
  by_cases hall : (tagShows cache today shows).all (fun p => p.2) = true
  · rw [enrich_eq_allHit _ _ _ _ _ hall]
    have hsome : ∀ s ∈ shows, (cacheLookup cache s.slug today).isSome = true := by
      intro s hs
      have hm := List.all_eq_true.mp hall (tagOne cache today s)
        (List.mem_map.mpr ⟨s, hs, rfl⟩)
      rw [tagOne_snd] at hm
      exact hm
    refine ⟨?_, hU, hsome, ?_⟩
    · symm
      rw [List.countP_eq_zero]
      intro s hs
      rcases Option.isSome_iff_exists.mp (hsome s hs) with ⟨r, hr2⟩
      simp [hr2]
    · exact enrich_eq_allHit _ _ _ _ _ hall
  · rw [enrich_eq_go _ _ _ _ _ hall]
    have hsome2 : ∀ s ∈ shows,
        (cacheLookup (enrichGo oracle today (tagShows cache today shows) cache).cache
          s.slug today).isSome = true := by
      intro s hs
      cases h2 : cacheLookup cache s.slug today with
      | some r => exact enrichGo_cache_isSome _ _ _ _ _ _ (by rw [h2]; rfl)
      | none =>
          have hmem : (s, false) ∈ tagShows cache today shows := by
            rw [← tagOne_miss cache today s h2]
            exact List.mem_map.mpr ⟨s, hs, rfl⟩
          exact enrichGo_cache_mem oracle today _ cache (s, false) hmem rfl
    have hall2 : (tagShows
        (enrichGo oracle today (tagShows cache today shows) cache).cache
        today shows).all (fun p => p.2) = true := by
      rw [tagShows, List.all_eq_true]
      intro p hp
      rcases List.mem_map.mp hp with ⟨s, hs, hps⟩
      rw [← hps, tagOne_snd]
      exact hsome2 s hs
    refine ⟨?_, CacheUnique_enrichGo _ _ _ _ hU, hsome2, ?_⟩
    · rw [enrichGo_upserts, tagShows, List.countP_map]
      refine countP_ext _ _ _ (fun s _ => ?_)
      rw [Function.comp_apply, tagOne_snd, Option.bnot_isSome]
    · exact enrich_eq_allHit _ _ _ _ _ hall2

/-- Witness input for the merger claims: a successful OMDb response. -/
def omdbRespFound : OmdbResp :=
  ⟨some "True", none,
    [(some "Rotten Tomatoes", some "91%"), (some "Metacritic", some "81/100")],
    some "7.9", some "12345", some "tt12345", some "poster.jpg", some "128 min"⟩

/-- Witness input: one show as it enters the merger (no enrichment keys
yet). -/
def showDune : Show :=
  ⟨"dune-part-two", "Dune: Part Two", some 2024,
    none, none, none, none, none, none, none, false⟩

/-- Witness for C4: one uncached show, an always-successful provider; the
run performs one upsert, the key is present afterwards, and the same-day
re-run is the early-return with zero calls and zero upserts. -/
theorem claim_C4_witness :
    (enrich_with_omdb (fun _ _ => Except.ok omdbRespFound) "2025-05-13"
        (some "k") [showDune] []).upserts
      = [showDune].countP (fun s => (cacheLookup [] s.slug "2025-05-13").isNone)
    ∧ (∀ s ∈ [showDune],
        (cacheLookup (enrich_with_omdb (fun _ _ => Except.ok omdbRespFound)
          "2025-05-13" (some "k") [showDune] []).cache s.slug "2025-05-13").isSome = true)
    ∧ enrich_with_omdb (fun _ _ => Except.ok omdbRespFound) "2025-05-13" (some "k")
        [showDune]
        (enrich_with_omdb (fun _ _ => Except.ok omdbRespFound) "2025-05-13"
          (some "k") [showDune] []).cache
      = ⟨(tagShows (enrich_with_omdb (fun _ _ => Except.ok omdbRespFound)
            "2025-05-13" (some "k") [showDune] []).cache "2025-05-13"
            [showDune]).map (fun p => p.1),
         (enrich_with_omdb (fun _ _ => Except.ok omdbRespFound) "2025-05-13"
            (some "k") [showDune] []).cache, 0, 0⟩ := by
  have h := claim_C4 (fun _ _ => Except.ok omdbRespFound) "2025-05-13" "k"
    [showDune] [] _ (fun _ _ => Nat.zero_le 1) rfl
  exact ⟨h.1, h.2.2.1, h.2.2.2⟩

/-- Claim C5: an item with a same-day cache row is hydrated from that row
in place, and the run's provider-call count is the sum over the uncached
items only — a cached item contributes zero network calls. -/
theorem claim_C5 (oracle : OmdbOracle) (today : String) (api_key : Option String)
    (shows : List Show) (cache : Cache) (i : Nat) (h1 : i < shows.length)
    (r : CacheRow) (hhit : cacheLookup cache (shows[i]).slug today = some r) :
    (enrich_with_omdb oracle today api_key shows cache).shows.length = shows.length
    ∧ (∀ h2 : i < (enrich_with_omdb oracle today api_key shows cache).shows.length,
        (enrich_with_omdb oracle today api_key shows cache).shows[i]
          = hydrate shows[i] r)
    ∧ (enrich_with_omdb oracle today api_key shows cache).apiCalls
        = match api_key with
          | none => 0
          | some _ =>
              ((shows.filter (fun t : Show => (cacheLookup cache t.slug today).isNone)).map
                (fun t : Show => (fetch_omdb_queries oracle t.title t.year).length)).sum := by
  by_cases hall : (tagShows cache today shows).all (fun p => p.2) = true
  · rw [enrich_eq_allHit _ _ _ _ _ hall]
    have hfe : shows.filter (fun t : Show => (cacheLookup cache t.slug today).isNone) = [] := by
      rw [List.filter_eq_nil_iff]
      intro s hs
      have hm := List.all_eq_true.mp hall (tagOne cache today s)
        (List.mem_map.mpr ⟨s, hs, rfl⟩)
      rw [tagOne_snd] at hm
      rcases Option.isSome_iff_exists.mp hm with ⟨w, hw⟩
      simp [hw]
    refine ⟨by simp [tagShows], ?_, ?_⟩
    · intro h2
      simp [tagShows, List.getElem_map, tagOne_hit _ _ _ _ hhit]
    · cases api_key with
      | none => rfl
      | some k => simp [hfe]
  · cases api_key with
    | none =>
        rw [enrich_eq_noKey _ _ _ _ hall]
        refine ⟨by simp [tagShows], ?_, rfl⟩
        intro h2
        simp [tagShows, List.getElem_map, tagOne_hit _ _ _ _ hhit]
    | some k =>
        rw [enrich_eq_go _ _ _ _ _ hall]
        refine ⟨by simp [enrichGo_shows, tagShows], ?_, ?_⟩
        · intro h2
          rw [List.getElem_of_eq
            (enrichGo_shows oracle today (tagShows cache today shows) cache) h2]
          simp [tagShows, List.getElem_map, tagOne_hit _ _ _ _ hhit]
        · rw [enrichGo_apiCalls, tagShows, List.filter_map, List.map_map]
          have hq : shows.filter ((fun p : Show × Bool => !p.2) ∘ tagOne cache today)
              = shows.filter (fun t : Show => (cacheLookup cache t.slug today).isNone) := by
            refine List.filter_congr (fun s _ => ?_)
            rw [Function.comp_apply, tagOne_snd, Option.bnot_isSome]
          rw [hq]
          refine congrArg List.sum (List.map_congr_left (fun s hs => ?_))
          have hm : (cacheLookup cache s.slug today).isNone = true :=
            (List.mem_filter.mp hs).2
          rw [Function.comp_apply,
            tagOne_miss _ _ _ (Option.isNone_iff_eq_none.mp hm)]

/-- Witness for C5: two shows, the first cached (hydrated in place, zero
calls for it), the second uncached (its lookup is the only provider
traffic). -/
theorem claim_C5_witness :
    (enrich_with_omdb (fun _ _ => Except.ok omdbRespFound) "2025-05-13"
        (some "k")
        [showDune, ⟨"other", "Other", none, none, none, none, none, none, none, none, false⟩]
        [(("dune-part-two", "2025-05-13"),
          ⟨some "7.9", some "12345", some "tt12345", some "poster.jpg",
            some "91%", some "81", some "128 min"⟩)]).shows.length = 2
    ∧ (enrich_with_omdb (fun _ _ => Except.ok omdbRespFound) "2025-05-13"
        (some "k")
        [showDune, ⟨"other", "Other", none, none, none, none, none, none, none, none, false⟩]
        [(("dune-part-two", "2025-05-13"),
          ⟨some "7.9", some "12345", some "tt12345", some "poster.jpg",
            some "91%", some "81", some "128 min"⟩)]).shows.get ⟨0, by decide⟩
      = hydrate showDune
          ⟨some "7.9", some "12345", some "tt12345", some "poster.jpg",
            some "91%", some "81", some "128 min"⟩
    ∧ (enrich_with_omdb (fun _ _ => Except.ok omdbRespFound) "2025-05-13"
        (some "k")
        [showDune, ⟨"other", "Other", none, none, none, none, none, none, none, none, false⟩]
        [(("dune-part-two", "2025-05-13"),
          ⟨some "7.9", some "12345", some "tt12345", some "poster.jpg",
            some "91%", some "81", some "128 min"⟩)]).apiCalls = 1 := by
  have h := claim_C5 (fun _ _ => Except.ok omdbRespFound) "2025-05-13" (some "k")
    [showDune, ⟨"other", "Other", none, none, none, none, none, none, none, none, false⟩]
    [(("dune-part-two", "2025-05-13"),
      ⟨some "7.9", some "12345", some "tt12345", some "poster.jpg",
        some "91%", some "81", some "128 min"⟩)]
    0 (by decide)
    ⟨some "7.9", some "12345", some "tt12345", some "poster.jpg",
      some "91%", some "81", some "128 min"⟩
    (by decide)
  refine ⟨by simp [h.1], ?_, ?_⟩
  · have h0 := h.2.1 (by rw [h.1]; decide)
    rw [List.get_eq_getElem, h0]
    rfl
  · rw [h.2.2]
    decide

/-- Claim C9 (implicit): with an API key, a failed provider lookup for an
uncached item still writes the `(slug, today)` cache row, with every
enrichment column empty; the item's in-memory record gets explicit empty
values; and the same-day re-run is a cache hit performing zero provider
calls and changing nothing. -/
theorem claim_C9 (oracle : OmdbOracle) (today k : String) (s : Show) (cache : Cache)
    (hmiss : cacheLookup cache s.slug today = none)
    (hfail : fetch_omdb_data oracle s.title s.year = none) :
    (enrich_with_omdb oracle today (some k) [s] cache).shows = [applyFetched s none]
    ∧ cacheLookup (enrich_with_omdb oracle today (some k) [s] cache).cache
        s.slug today = some ⟨none, none, none, none, none, none, none⟩
    ∧ enrich_with_omdb oracle today (some k) [s]
        (enrich_with_omdb oracle today (some k) [s] cache).cache
      = ⟨[hydrate s ⟨none, none, none, none, none, none, none⟩],
         (enrich_with_omdb oracle today (some k) [s] cache).cache, 0, 0⟩
    ∧ (enrich_with_omdb oracle today (some k) [s]
        (enrich_with_omdb oracle today (some k) [s] cache).cache).apiCalls = 0 := by
  have htag : tagShows cache today [s] = [(s, false)] := by
    simp [tagShows, tagOne_miss _ _ _ hmiss]
  have hall : ¬ ((tagShows cache today [s]).all (fun p => p.2) = true) := by
    rw [htag]
    simp
  have he1 : enrich_with_omdb oracle today (some k) [s] cache
      = ⟨[applyFetched s none],
         cacheUpsert cache s.slug today ⟨none, none, none, none, none, none, none⟩,
         (fetch_omdb_queries oracle s.title s.year).length, 1⟩ := by
    rw [enrich_eq_go _ _ _ _ _ hall, htag]
    simp only [enrichGo, hfail]
    rfl
  have hlook : cacheLookup
      (cacheUpsert cache s.slug today ⟨none, none, none, none, none, none, none⟩)
      s.slug today = some ⟨none, none, none, none, none, none, none⟩ :=
    cacheLookup_upsert_self _ _ _ _
  have htag2 : tagShows
      (cacheUpsert cache s.slug today ⟨none, none, none, none, none, none, none⟩)
      today [s]
      = [(hydrate s ⟨none, none, none, none, none, none, none⟩, true)] := by
    simp [tagShows, tagOne_hit _ _ _ _ hlook]
  have he2 : enrich_with_omdb oracle today (some k) [s]
      (cacheUpsert cache s.slug today ⟨none, none, none, none, none, none, none⟩)
      = ⟨[hydrate s ⟨none, none, none, none, none, none, none⟩],
         cacheUpsert cache s.slug today ⟨none, none, none, none, none, none, none⟩,
         0, 0⟩ := by
    rw [enrich_eq_allHit _ _ _ _ _ (by rw [htag2]; rfl), htag2]
    rfl
  refine ⟨by rw [he1], by rw [he1]; exact hlook, ?_, ?_⟩
  · rw [he1]
    exact he2
  · rw [he1, he2]

/-- Witness for C9: an uncached show whose lookup raises; the cache row
for it is written all-empty and the re-run is a zero-call cache hit. -/
theorem claim_C9_witness :
    (enrich_with_omdb (fun _ _ => Except.error ()) "2025-05-13" (some "k")
        [showDune] []).shows = [applyFetched showDune none]
    ∧ cacheLookup (enrich_with_omdb (fun _ _ => Except.error ()) "2025-05-13"
        (some "k") [showDune] []).cache "dune-part-two" "2025-05-13"
      = some ⟨none, none, none, none, none, none, none⟩
    ∧ (enrich_with_omdb (fun _ _ => Except.error ()) "2025-05-13" (some "k")
        [showDune]
        (enrich_with_omdb (fun _ _ => Except.error ()) "2025-05-13" (some "k")
          [showDune] []).cache).apiCalls = 0 := by
  have h := claim_C9 (fun _ _ => Except.error ()) "2025-05-13" "k" showDune []
    rfl rfl
  exact ⟨h.1, h.2.1, h.2.2.2⟩

/-! ## Claim C1: field presence and the N/A sentinel -/

/-- All seven enrichment keys are present on the record (possibly with an
empty value). -/
def presentAll (s : Show) : Prop :=
  s.omdbRating.isSome = true ∧ s.omdbVotes.isSome = true
  ∧ s.imdbID.isSome = true ∧ s.omdbPoster.isSome = true
  ∧ s.rtRating.isSome = true ∧ s.mcRating.isSome = true
  ∧ s.runtime.isSome = true

/-- The five N/A-filtered enrichment keys of a show hold no literal
sentinel. -/
def showNoNA (s : Show) : Prop :=
  s.omdbRating ≠ some (some "N/A") ∧ s.omdbVotes ≠ some (some "N/A")
  ∧ s.omdbPoster ≠ some (some "N/A") ∧ s.rtRating ≠ some (some "N/A")
  ∧ s.mcRating ≠ some (some "N/A")

/-- The five N/A-filtered columns of a cache row hold no literal
sentinel. -/
def rowNoNA (r : CacheRow) : Prop :=
  r.omdbRating ≠ some "N/A" ∧ r.omdbVotes ≠ some "N/A"
  ∧ r.omdbPoster ≠ some "N/A" ∧ r.rtRating ≠ some "N/A"
  ∧ r.mcRating ≠ some "N/A"

/-- The five N/A-filtered fields of a fetch result hold no literal
sentinel. -/
def enrNoNA (e : Enrichment) : Prop :=
  e.imdbRating ≠ some "N/A" ∧ e.imdbVotes ≠ some "N/A"
  ∧ e.omdbPoster ≠ some "N/A" ∧ e.rtRating ≠ some "N/A"
  ∧ e.mcRating ≠ some "N/A"

def cacheNoNA (c : Cache) : Prop :=
  ∀ e ∈ c, rowNoNA e.2

theorem filterNA_ne (v : Option String) : filterNA v ≠ some "N/A" := by
  unfold filterNA
  by_cases h : (v == some "N/A") = true
  · simp [h]
  · rw [Bool.not_eq_true] at h
    rw [if_neg (by simp [h])]
    exact beq_eq_false_iff_ne.mp h

theorem splitHeadSlash_ne (v : String) : splitHeadSlash v ≠ "N/A" := by
  intro h
  unfold splitHeadSlash at h
  have hl : (v.toList.takeWhile fun c => c != '/') = "N/A".data :=
    congrArg String.data h
  have hmem : '/' ∈ v.toList.takeWhile (fun c => c != '/') := by
    rw [hl]
    decide
  have := List.mem_takeWhile_imp hmem
  simp at this

theorem rtMcStep_noNA (acc r : Option String × Option String)
    (h1 : acc.1 ≠ some "N/A") (h2 : acc.2 ≠ some "N/A") :
    (rtMcStep acc r).1 ≠ some "N/A" ∧ (rtMcStep acc r).2 ≠ some "N/A" := by
  unfold rtMcStep
  constructor
  · by_cases hc : (r.1 == some "Rotten Tomatoes" && !(r.2 == some "N/A")
        && !(r.2 == none)) = true
    · simp only [hc, if_true]
      have hc2 := hc
      simp only [Bool.and_eq_true] at hc2
      simpa using hc2.1.2
    · rw [Bool.not_eq_true] at hc
      simp only [hc, Bool.false_eq_true, if_false]
      exact h1
  · by_cases hc : (r.1 == some "Metacritic" && !(r.2 == some "N/A")
        && !(r.2 == none)) = true
    · simp only [hc, if_true]
      have hc2 := hc
      simp only [Bool.and_eq_true] at hc2
      have hv := hc2.2
      rcases hr2 : r.2 with _ | w
      · simp [hr2] at hv
      · intro heq
        have hw : splitHeadSlash w = "N/A" := by
          simpa [Option.map] using heq
        exact splitHeadSlash_ne w hw
    · rw [Bool.not_eq_true] at hc
      simp only [hc, Bool.false_eq_true, if_false]
      exact h2

theorem foldl_rtMc_noNA (rs : List (Option String × Option String))
    (acc : Option String × Option String)
    (h1 : acc.1 ≠ some "N/A") (h2 : acc.2 ≠ some "N/A") :
    (rs.foldl rtMcStep acc).1 ≠ some "N/A"
    ∧ (rs.foldl rtMcStep acc).2 ≠ some "N/A" := by
  induction rs generalizing acc with
  | nil => exact ⟨h1, h2⟩
  | cons r rest ih =>
      rw [List.foldl_cons]
      rcases rtMcStep_noNA acc r h1 h2 with ⟨g1, g2⟩
      exact ih _ g1 g2

theorem extractFields_noNA (d : OmdbResp) : enrNoNA (extractFields d) := by
  rcases foldl_rtMc_noNA d.ratings (none, none) (by simp) (by simp) with ⟨g1, g2⟩
  exact ⟨filterNA_ne _, filterNA_ne _, filterNA_ne _, g1, g2⟩

theorem fetch_noNA (oracle : OmdbOracle) (t : String) (y : Option Int)
    (e : Enrichment) (h : fetch_omdb_data oracle t y = some e) : enrNoNA e := by
  unfold fetch_omdb_data at h
  split at h
  · cases h
  · split at h
    · cases h
      exact extractFields_noNA _
    · split at h
      · split at h
        · split at h
          · cases h
          · split at h
            · cases h
              exact extractFields_noNA _
            · cases h
        · cases h
      · cases h

theorem cacheLookup_mem (c : Cache) (slug day : String) (r : CacheRow)
    (h : cacheLookup c slug day = some r) : ∃ e ∈ c, e.2 = r := by
  induction c with
  | nil => cases h
  | cons e rest ih =>
      unfold cacheLookup at h
      split at h
      · cases h
        exact ⟨e, List.mem_cons_self _ _, rfl⟩
      · rcases ih h with ⟨e2, he2, hr2⟩
        exact ⟨e2, List.mem_cons_of_mem _ he2, hr2⟩

theorem hydrate_present (s : Show) (r : CacheRow) : presentAll (hydrate s r) := by
  unfold hydrate presentAll
  simp

theorem hydrate_noNA (s : Show) (r : CacheRow) (h : rowNoNA r) :
    showNoNA (hydrate s r) := by
  unfold hydrate showNoNA
  refine ⟨?_, ?_, ?_, ?_, ?_⟩ <;>
    simp only [] <;> intro hc
  · exact h.1 (Option.some.inj hc)
  · exact h.2.1 (Option.some.inj hc)
  · exact h.2.2.1 (Option.some.inj hc)
  · exact h.2.2.2.1 (Option.some.inj hc)
  · exact h.2.2.2.2 (Option.some.inj hc)

theorem setdefaultF_isSome (v : Option (Option String)) :
    (setdefaultF v).isSome = true := by
  cases v <;> rfl

theorem setdefaultF_noNA (v : Option (Option String))
    (h : v ≠ some (some "N/A")) : setdefaultF v ≠ some (some "N/A") := by
  cases v with
  | none => simp [setdefaultF]
  | some x => simpa [setdefaultF] using h

theorem applyDefaults_present (s : Show) : presentAll (applyDefaults s) := by
  unfold applyDefaults presentAll
  exact ⟨setdefaultF_isSome _, setdefaultF_isSome _, setdefaultF_isSome _,
    setdefaultF_isSome _, setdefaultF_isSome _, setdefaultF_isSome _,
    setdefaultF_isSome _⟩

theorem applyDefaults_noNA (s : Show) (h : showNoNA s) :
    showNoNA (applyDefaults s) := by
  unfold applyDefaults showNoNA
  exact ⟨setdefaultF_noNA _ h.1, setdefaultF_noNA _ h.2.1,
    setdefaultF_noNA _ h.2.2.1, setdefaultF_noNA _ h.2.2.2.1,
    setdefaultF_noNA _ h.2.2.2.2⟩

theorem applyFetched_present (s : Show) (d : Option Enrichment) :
    presentAll (applyFetched s d) := by
  unfold applyFetched presentAll
  simp

theorem dget_noNA (d : Option Enrichment) (f : Enrichment → Option String)
    (hd : ∀ e, d = some e → f e ≠ some "N/A") : dget d f ≠ some "N/A" := by
  cases d with
  | none => simp [dget]
  | some e => exact hd e rfl

theorem applyFetched_noNA (s : Show) (d : Option Enrichment)
    (hd : ∀ e, d = some e → enrNoNA e) : showNoNA (applyFetched s d) := by
  unfold applyFetched showNoNA
  refine ⟨?_, ?_, ?_, ?_, ?_⟩ <;> simp only [] <;> intro hc
  · exact dget_noNA d _ (fun e he => (hd e he).1) (Option.some.inj hc)
  · exact dget_noNA d _ (fun e he => (hd e he).2.1) (Option.some.inj hc)
  · exact dget_noNA d _ (fun e he => (hd e he).2.2.1) (Option.some.inj hc)
  · exact dget_noNA d _ (fun e he => (hd e he).2.2.2.1) (Option.some.inj hc)
  · exact dget_noNA d _ (fun e he => (hd e he).2.2.2.2) (Option.some.inj hc)

theorem rowOf_applyFetched_noNA (s : Show) (d : Option Enrichment)
    (hd : ∀ e, d = some e → enrNoNA e) : rowNoNA (rowOf (applyFetched s d)) := by
  unfold rowOf applyFetched rowNoNA
  refine ⟨?_, ?_, ?_, ?_, ?_⟩ <;> simp only [Option.join] <;> intro hc
  · exact dget_noNA d _ (fun e he => (hd e he).1) hc
  · exact dget_noNA d _ (fun e he => (hd e he).2.1) hc
  · exact dget_noNA d _ (fun e he => (hd e he).2.2.1) hc
  · exact dget_noNA d _ (fun e he => (hd e he).2.2.2.1) hc
  · exact dget_noNA d _ (fun e he => (hd e he).2.2.2.2) hc

theorem cacheNoNA_delete (c : Cache) (slug day : String) (h : cacheNoNA c) :
    cacheNoNA (cacheDelete c slug day) := by
  induction c with
  | nil => exact h
  | cons e rest ih =>
      have hrest : cacheNoNA rest := fun e2 he2 => h e2 (List.mem_cons_of_mem _ he2)
      unfold cacheDelete
      split
      · exact ih hrest
      · intro e2 he2
        rcases List.mem_cons.mp he2 with he2 | he2
        · rw [he2]
          exact h e (List.mem_cons_self _ _)
        · exact ih hrest e2 he2

theorem cacheNoNA_upsert (c : Cache) (slug day : String) (r : CacheRow)
    (h : cacheNoNA c) (hr : rowNoNA r) : cacheNoNA (cacheUpsert c slug day r) := by
  intro e2 he2
  rcases List.mem_cons.mp he2 with he2 | he2
  · rw [he2]
    exact hr
  · exact cacheNoNA_delete c slug day h e2 he2

theorem cacheNoNA_enrichGo (oracle : OmdbOracle) (today : String)
    (l : List (Show × Bool)) (c : Cache) (h : cacheNoNA c) :
    cacheNoNA (enrichGo oracle today l c).cache := by
  induction l generalizing c with
  | nil => exact h
  | cons p rest ih =>
      rcases p with ⟨s0, hit⟩
      cases hit
      · have hrow : rowNoNA (rowOf (applyFetched s0
            (fetch_omdb_data oracle s0.title s0.year))) :=
          rowOf_applyFetched_noNA _ _ (fun e he => fetch_noNA oracle _ _ e he)
        simpa [enrichGo] using ih _ (cacheNoNA_upsert _ _ _ _ h hrow)
      · simpa [enrichGo] using ih _ h

theorem tagOne_fst_present_noNA (cache : Cache) (today : String) (s : Show)
    (hc : cacheNoNA cache) (_hcs : showNoNA s)
    (hhit : (tagOne cache today s).2 = true) :
    presentAll (tagOne cache today s).1 ∧ showNoNA (tagOne cache today s).1 := by
  cases h2 : cacheLookup cache s.slug today with
  | none =>
      rw [tagOne_snd, h2] at hhit
      cases hhit
  | some r =>
      rw [tagOne_hit _ _ _ _ h2]
      rcases cacheLookup_mem cache _ _ r h2 with ⟨e, he, her⟩
      have hr := her ▸ hc e he
      exact ⟨hydrate_present s r, hydrate_noNA s r hr⟩

/-- Counterexample to claim C1 as stated: a provider success response
with `Runtime = "N/A"` puts the literal sentinel into the output record's
runtime field (the code filters the sentinel for the rating, votes,
poster and critic-score fields, but copies the runtime through raw). -/
theorem claim_C1_counterexample :
    ((enrich_with_omdb
        (fun _ _ => Except.ok ⟨some "True", none, [], none, none, some "tt1", none, some "N/A"⟩)
        "2025-05-13" (some "k") [showDune] []).shows.map
          (fun s => s.runtime)) = [some (some "N/A")] := by
  decide

/-- Claim C1 amended: on every path (cache hit, live lookup, failed
lookup, no API key) every enrichment field is present in the output
record, and — provided the incoming cache and shows are sentinel-free in
those fields — the rating, vote count, poster and the two critic scores
never hold the provider's literal "N/A"; the cache stays sentinel-free in
those columns too.  (The external id and runtime are copied through
unfiltered and are exempt, as the counterexample shows.) -/
theorem claim_C1_amended (oracle : OmdbOracle) (today : String)
    (api_key : Option String) (shows : List Show) (cache : Cache)
    (hc : cacheNoNA cache) (hs : ∀ s ∈ shows, showNoNA s) :
    (∀ s2 ∈ (enrich_with_omdb oracle today api_key shows cache).shows,
      presentAll s2 ∧ showNoNA s2)
    ∧ cacheNoNA (enrich_with_omdb oracle today api_key shows cache).cache := by
  by_cases hall : (tagShows cache today shows).all (fun p => p.2) = true
  · rw [enrich_eq_allHit _ _ _ _ _ hall]
    refine ⟨?_, hc⟩
    intro s2 hs2
    rcases List.mem_map.mp hs2 with ⟨p, hp, hps⟩
    rcases List.mem_map.mp hp with ⟨s, hsm, hsp⟩
    have hhit : p.2 = true := List.all_eq_true.mp hall p hp
    rw [← hps, ← hsp]
    rw [← hsp] at hhit
    exact tagOne_fst_present_noNA cache today s hc (hs s hsm) hhit
  · cases api_key with
    | none =>
        rw [enrich_eq_noKey _ _ _ _ hall]
        refine ⟨?_, hc⟩
        intro s2 hs2
        rcases List.mem_map.mp hs2 with ⟨p, hp, hps⟩
        rcases List.mem_map.mp hp with ⟨s, hsm, hsp⟩
        rw [← hps]
        by_cases hhit : p.2 = true
        · rw [if_pos hhit, ← hsp]
          rw [← hsp] at hhit
          exact tagOne_fst_present_noNA cache today s hc (hs s hsm) hhit
        · rw [if_neg hhit]
          have hmiss : p = (s, false) := by
            rw [← hsp]
            rw [← hsp] at hhit
            cases h2 : cacheLookup cache s.slug today with
            | none => exact tagOne_miss _ _ _ h2
            | some r =>
                rw [tagOne_snd, h2] at hhit
                exact absurd rfl hhit
          rw [hmiss]
          exact ⟨applyDefaults_present s, applyDefaults_noNA s (hs s hsm)⟩
    | some k =>
        rw [enrich_eq_go _ _ _ _ _ hall]
        refine ⟨?_, cacheNoNA_enrichGo _ _ _ _ hc⟩
        intro s2 hs2
        rw [enrichGo_shows] at hs2
        rcases List.mem_map.mp hs2 with ⟨p, hp, hps⟩
        rcases List.mem_map.mp hp with ⟨s, hsm, hsp⟩
        rw [← hps]
        by_cases hhit : p.2 = true
        · rw [if_pos hhit, ← hsp]
          rw [← hsp] at hhit
          exact tagOne_fst_present_noNA cache today s hc (hs s hsm) hhit
        · rw [if_neg hhit]
          have hmiss : p = (s, false) := by
            rw [← hsp]
            rw [← hsp] at hhit
            cases h2 : cacheLookup cache s.slug today with
            | none => exact tagOne_miss _ _ _ h2
            | some r =>
                rw [tagOne_snd, h2] at hhit
                exact absurd rfl hhit
          rw [hmiss]
          exact ⟨applyFetched_present _ _,
            applyFetched_noNA _ _ (fun e he => fetch_noNA oracle _ _ e he)⟩

/-- Witness for the amended C1: the N/A-runtime provider, an empty cache
and one clean show; every output field is present, the five filtered
fields are sentinel-free, and the cache stays sentinel-free. -/
theorem claim_C1_witness :
    (∀ s2 ∈ (enrich_with_omdb
        (fun _ _ => Except.ok ⟨some "True", none, [], none, none, some "tt1", none, some "N/A"⟩)
        "2025-05-13" (some "k") [showDune] []).shows,
      presentAll s2 ∧ showNoNA s2)
    ∧ cacheNoNA (enrich_with_omdb
        (fun _ _ => Except.ok ⟨some "True", none, [], none, none, some "tt1", none, some "N/A"⟩)
        "2025-05-13" (some "k") [showDune] []).cache :=
  claim_C1_amended
    (fun _ _ => Except.ok ⟨some "True", none, [], none, none, some "tt1", none, some "N/A"⟩)
    "2025-05-13" (some "k") [showDune] []
    (fun e he => absurd he (List.not_mem_nil e))
    (fun s hsm => by
      rcases List.mem_singleton.mp hsm with rfl
      exact ⟨by decide, by decide, by decide, by decide, by decide⟩)

end PatheScrape
